import Mathlib

/-!
Verification development for the QUIT DESPOT1 / signal-synthesis core
(`Source/qdespot1.cpp`, `Source/qsignal.cpp`, `Source/Signals/SignalEquations.h`).

The per-voxel fitting routine `DESPOT1::apply` and the synthesis filter
`SignalsFilter::ThreadedGenerateData` are embedded shallowly over the real
numbers: Eigen vectors become `List ℝ`, the 2x2 partial-pivot LU solve of the
normal equations becomes the exact Cramer solution (equal to the LU solution in
exact arithmetic whenever the system is nonsingular), and machine doubles
become exact reals.  One convention difference is noted where it matters:
Lean's real division returns 0 on a zero divisor, where IEEE doubles give
±inf/NaN.
-/

/-- Modelled from the spec: the single-compartment SPGR steady-state signal
equation (the body of `One_SPGR`, declared in `SignalEquations.h` but whose
definition is not under `src/`):
`E1 = exp(-TR/T1)`, `S(α) = PD * sin(α*B1) * (1 - E1) / (1 - E1*cos(α*B1))`,
one value per flip angle. -/
noncomputable def One_SPGR (flip : List ℝ) (TR PD T1 B1 : ℝ) : List ℝ :=
  flip.map (fun a =>
    PD * Real.sin (a * B1) * (1 - Real.exp (-TR / T1)) /
      (1 - Real.exp (-TR / T1) * Real.cos (a * B1)))

/-- `sequence->flip() * B1` (qdespot1.cpp line 98): every nominal flip angle
scaled by the per-voxel B1 ratio. -/
noncomputable def scaledFlip (flip : List ℝ) (B1 : ℝ) : List ℝ :=
  flip.map (fun a => a * B1)

/-- `Y = data.array() / flip.sin()` (qdespot1.cpp line 99), with `flip`
already scaled by B1. -/
noncomputable def llsY (flip : List ℝ) (data : List ℝ) (B1 : ℝ) : List ℝ :=
  List.zipWith (fun s a => s / Real.sin a) data (scaledFlip flip B1)

/-- `X.col(0) = data.array() / flip.tan()` (qdespot1.cpp line 101); the design
matrix's second column is all ones. -/
noncomputable def llsX (flip : List ℝ) (data : List ℝ) (B1 : ℝ) : List ℝ :=
  List.zipWith (fun s a => s / Real.tan a) data (scaledFlip flip B1)

/-- Sum of elementwise products of two lists (an inner product). -/
def dot2 (a b : List ℝ) : ℝ :=
  (List.zipWith (fun u v => u * v) a b).sum

/-- Sum of elementwise triple products (used for the weighted inner
products `Σ w·x·x`, `Σ w·x·y`). -/
def dot3 (w a b : List ℝ) : ℝ :=
  (List.zipWith (fun u v => u * v) w (List.zipWith (fun s t => s * t) a b)).sum

/-- Exact solution of the symmetric 2x2 linear system
`[[a, b], [b, c]] · [b0, b1] = [e, f]` by Cramer's rule.  This embeds
`partialPivLu().solve` (qdespot1.cpp lines 103 and 110): in exact arithmetic
the LU solve returns this unique solution whenever `a*c - b*b ≠ 0`. -/
noncomputable def solve2 (a b c e f : ℝ) : ℝ × ℝ :=
  ((c * e - b * f) / (a * c - b * b), (a * f - b * e) / (a * c - b * b))

/-- The unweighted normal-equations solve
`(X.transpose() * X).partialPivLu().solve(X.transpose() * Y)`
(qdespot1.cpp line 103), where `X = [x, 1]`:
`XᵗX = [[Σx², Σx], [Σx, n]]`, `XᵗY = [Σx·y, Σy]`. -/
noncomputable def llsSolve (x y : List ℝ) : ℝ × ℝ :=
  solve2 (dot2 x x) x.sum (x.length : ℝ) (dot2 x y) y.sum

/-- The determinant of the unweighted normal-equations matrix `XᵗX`. -/
noncomputable def llsDet (x : List ℝ) : ℝ :=
  dot2 x x * (x.length : ℝ) - x.sum * x.sum

/-- `outputs[1] = -TR / log(b[0]); outputs[0] = b[1] / (1 - b[0])`
(qdespot1.cpp lines 104-105 and 111-112).  Result is `(PD, T1)` =
`(outputs[0], outputs[1])`. -/
noncomputable def outFromB (TR : ℝ) (b : ℝ × ℝ) : ℝ × ℝ :=
  (b.2 / (1 - b.1), -TR / Real.log b.1)

/-- The WLLS weight vector
`W = (flip.sin() / (1 - exp(-TR/outputs[1]) * flip.cos())).square()`
(qdespot1.cpp line 109), evaluated at the current T1 estimate; `flipS` is the
B1-scaled flip-angle list. -/
noncomputable def wllsW (flipS : List ℝ) (TR T1 : ℝ) : List ℝ :=
  flipS.map (fun a =>
    (Real.sin a / (1 - Real.exp (-TR / T1) * Real.cos a)) ^ 2)

/-- The weighted normal-equations solve
`(Xᵗ W X).partialPivLu().solve(Xᵗ W Y)` (qdespot1.cpp line 110):
`XᵗWX = [[Σw·x², Σw·x], [Σw·x, Σw]]`, `XᵗWY = [Σw·x·y, Σw·y]`. -/
noncomputable def wllsSolve (w x y : List ℝ) : ℝ × ℝ :=
  solve2 (dot3 w x x) (dot2 w x) w.sum (dot3 w x y) (dot2 w y)

/-- The determinant of the weighted normal-equations matrix `XᵗWX`. -/
noncomputable def wllsDet (w x : List ℝ) : ℝ :=
  dot3 w x x * w.sum - dot2 w x * dot2 w x

/-- One pass of the WLLS loop body (qdespot1.cpp lines 109-112): recompute the
weights at the current T1 estimate (`o.2`), solve the weighted normal
equations, and re-derive `(PD, T1)` from the new coefficients. -/
noncomputable def wllsStep (flipS x y : List ℝ) (TR : ℝ) (o : ℝ × ℝ) : ℝ × ℝ :=
  outFromB TR (wllsSolve (wllsW flipS TR o.2) x y)

/-- `T1Functor::operator()` (qdespot1.cpp lines 60-75): residual functor for
the Levenberg-Marquardt strategy; `diffs = s.abs() - m_data`, with `s` the
SPGR forward signal at parameters `p = (PD, T1)` (the functor is built on an
`SPGRSimple` sequence and the single-compartment model, whose signal is the
`One_SPGR` equation). -/
noncomputable def t1functor (flip : List ℝ) (TR : ℝ) (data : List ℝ) (B1 : ℝ)
    (p : ℝ × ℝ) : List ℝ :=
  List.zipWith (fun s d => |s| - d) (One_SPGR flip TR p.1 p.2 B1) data

/-- Modelled from the spec: Eigen's `NumericalDiff` wrapper (not under `src/`)
computes the objective's Jacobian by forward differencing of the forward model
with step `h`; the two returned lists are the partial-difference quotients in
`PD` and in `T1`. -/
noncomputable def numericalDiffJacobian (f : ℝ × ℝ → List ℝ) (h : ℝ)
    (p : ℝ × ℝ) : List ℝ × List ℝ :=
  (List.zipWith (fun u v => (u - v) / h) (f (p.1 + h, p.2)) (f p),
   List.zipWith (fun u v => (u - v) / h) (f (p.1, p.2 + h)) (f p))

/-- Modelled from the spec: the type of Eigen's `LevenbergMarquardt::minimize`
(not under `src/`), treated as an opaque damped Gauss-Newton minimizer taking
the residual functor, its numerically-differenced Jacobian, the maximum
function-evaluation budget (`setMaxfev`), and the starting point, and
returning the minimizing parameters. -/
def LMMin : Type :=
  (ℝ × ℝ → List ℝ) → (ℝ × ℝ → List ℝ × List ℝ) → ℕ → ℝ × ℝ → ℝ × ℝ

/-- The three strategy tags of `DESPOT1::Type` (qdespot1.cpp line 36). -/
inductive D1Type : Type
  | LLS : D1Type
  | WLLS : D1Type
  | NLLS : D1Type

/-- `DESPOT1::apply` (qdespot1.cpp lines 91-124).  Inputs: the strategy tag
`t` (`m_type`), the iteration count `its` (`m_iterations`), the opaque
minimizer `lm` and differencing step `h` (Eigen internals, spec-modelled), the
sequence's flip angles and TR, the voxel's data vector, and `B1 = inputs[0]`.
Output: `((PD, T1), resids)` = `((outputs[0], outputs[1]), resids)`.  The
linear solve (lines 97-105) always runs first; the WLLS loop runs exactly
`its` passes on top of it; NLLS hands the linear result to the minimizer with
budget `its * (size + 1)`; finally
`resids = data.array() - One_SPGR(flip, TR, PD, T1, B1).array().abs()`
(lines 122-123). -/
noncomputable def despot1_apply (t : D1Type) (its : ℕ) (lm : LMMin) (h : ℝ)
    (flip : List ℝ) (TR : ℝ) (data : List ℝ) (B1 : ℝ) :
    (ℝ × ℝ) × List ℝ :=
  let flipS := scaledFlip flip B1
  let y := llsY flip data B1
  let x := llsX flip data B1
  let o0 := outFromB TR (llsSolve x y)
  let o : ℝ × ℝ :=
    match t with
    | .LLS => o0
    | .WLLS => (wllsStep flipS x y TR)^[its] o0
    | .NLLS =>
        lm (t1functor flip TR data B1)
          (numericalDiffJacobian (t1functor flip TR data B1) h)
          (its * (flip.length + 1)) o0
  let theory := (One_SPGR flip TR o.1 o.2 B1).map (fun s => |s|)
  (o, List.zipWith (fun d th => d - th) data theory)

/-- A trivial instantiation of the opaque minimizer type, used only to
evaluate `despot1_apply` at concrete inputs on the LLS/WLLS paths (which
ignore the minimizer). -/
def lm0 : LMMin := fun _ _ _ p => p

/-!  Embedding of the synthesis tool `qsignal.cpp`. -/

/-- The sequence variants recognised by `qsignal.cpp`'s `parseInput`
(lines 221-238); `SPINECHO` constructs a `MultiEcho` sequence. -/
inductive SeqKind : Type
  | SPGRSimple : SeqKind
  | SPGRFinite : SeqKind
  | SSFPSimple : SeqKind
  | SSFPFinite : SeqKind
  | SSFPEllipse : SeqKind
  | IRSPGR : SeqKind
  | MPRAGE : SeqKind
  | AFI : SeqKind
  | MultiEcho : SeqKind
  deriving DecidableEq, Repr

/-- The type-name dispatch of `parseInput` (qsignal.cpp lines 221-241): each
known name constructs the matching sequence; any other name throws
`runtime_error("Unknown signal type: " + type)`. -/
def parseSeqType (t : String) : Except String SeqKind :=
  if t = "SPGR" then .ok .SPGRSimple
  else if t = "SPGRFinite" then .ok .SPGRFinite
  else if t = "SSFP" then .ok .SSFPSimple
  else if t = "SSFPFinite" then .ok .SSFPFinite
  else if t = "SSFPEllipse" then .ok .SSFPEllipse
  else if t = "IRSPGR" then .ok .IRSPGR
  else if t = "MPRAGE" then .ok .MPRAGE
  else if t = "AFI" then .ok .AFI
  else if t = "SPINECHO" then .ok .MultiEcho
  else .error ("Unknown signal type: " ++ t)

/-- The known sequence-type names accepted by `parseInput`. -/
def knownSeqNames : List String :=
  ["SPGR", "SPGRFinite", "SSFP", "SSFPFinite", "SSFPEllipse",
   "IRSPGR", "MPRAGE", "AFI", "SPINECHO"]

/-- `parseInput` (qsignal.cpp lines 217-249) over the list of console tokens:
reads a type name until end-of-input, `"END"` or an empty line, dispatches it
through the known-variant chain (throwing on an unknown name), then reads the
output filename for that sequence and continues. -/
def parseInput : List String → Except String (List (SeqKind × String))
  | [] => .ok []
  | t :: rest =>
    if t = "END" ∨ t = "" then .ok []
    else
      match parseSeqType t with
      | .error e => .error e
      | .ok k =>
        match rest with
        | [] => .ok [(k, "")]
        | fn :: more =>
          match parseInput more with
          | .error e => .error e
          | .ok tail => .ok ((k, fn) :: tail)

/-- `SignalsFilter::ThreadedGenerateData` per voxel, unmasked path
(qsignal.cpp lines 128-137): the output vector is exactly
`m_sequence->signal(m_model, parameters)` — no noise term appears anywhere in
the filter.  The sequence/model signal function is abstract here (`signal`),
since the filter is generic over both. -/
def signalsVoxel (signal : List ℝ → List ℂ) (params : List ℝ) : List ℂ :=
  signal params

set_option linter.unusedVariables false in
/-- The per-voxel output of the `qsignal` tool: `main` parses the `--noise`
standard deviation into the static `sigma` (qsignal.cpp lines 196 and 262) but
never hands it to `SignalsFilter`, so the voxel output is the plain filter
output regardless of `sigma`. -/
def qsignalVoxelOutput (sigma : ℝ) (signal : List ℝ → List ℂ)
    (params : List ℝ) : List ℂ :=
  signalsVoxel signal params

/-- Follows the spec's words (§4.2, ClosedFormLinear): with
`X = S/tan(α*B1)` and `Y = S/sin(α*B1)` per flip angle, some coefficient pair
`b` solves the normal equations `(XᵗX) b = Xᵗ Y` of the fit of Y on `[X, 1]`,
and the output is `(PD, T1) = (b₁/(1-b₀), -TR/ln(b₀))`. -/
def LLS_spec (flip : List ℝ) (TR : ℝ) (data : List ℝ) (B1 : ℝ)
    (out : ℝ × ℝ) : Prop :=
  ∃ b : ℝ × ℝ,
    (let x := List.zipWith (fun s a => s / Real.tan (a * B1)) data flip
     let y := List.zipWith (fun s a => s / Real.sin (a * B1)) data flip
     dot2 x x * b.1 + x.sum * b.2 = dot2 x y ∧
     x.sum * b.1 + (x.length : ℝ) * b.2 = y.sum) ∧
    out = (b.2 / (1 - b.1), -TR / Real.log b.1)

/-- Follows the spec's words (§4.2, IterativelyReweightedLinear): one
reweighting pass at current estimate T1 uses the weight
`w(α) = [sin(α) / (1 - exp(-TR/T1)*cos(α))]²` over the (already B1-scaled)
flip angles, some coefficient pair `b` solves the weighted normal equations
`(XᵗWX) b = XᵗWY`, and the pass re-derives `(PD, T1) = (b₁/(1-b₀),
-TR/ln(b₀))`. -/
def WLLS_pass_spec (flipS x y : List ℝ) (TR T1 : ℝ) (o : ℝ × ℝ) : Prop :=
  ∃ b : ℝ × ℝ,
    (let w := flipS.map
        (fun a => (Real.sin a / (1 - Real.exp (-TR / T1) * Real.cos a)) ^ 2)
     dot3 w x x * b.1 + dot2 w x * b.2 = dot3 w x y ∧
     dot2 w x * b.1 + w.sum * b.2 = dot2 w y) ∧
    o = (b.2 / (1 - b.1), -TR / Real.log b.1)

/-!  Helper lemmas shared by several theorems below. -/

/-- Cramer's rule solves the symmetric 2x2 system whenever its determinant is
nonzero. -/
lemma solve2_solves (a b c e f : ℝ) (hdet : a * c - b * b ≠ 0) :
    a * (solve2 a b c e f).1 + b * (solve2 a b c e f).2 = e ∧
    b * (solve2 a b c e f).1 + c * (solve2 a b c e f).2 = f := by
  unfold solve2
  constructor
  · field_simp
    ring
  · field_simp
    ring

/-- B1 = 1 leaves the flip angles unscaled. -/
lemma scaledFlip_one (flip : List ℝ) : scaledFlip flip 1 = flip := by
  simp [scaledFlip]

/-- The residual vector of `apply` is `data - |forward signal|`, elementwise,
for every strategy. -/
lemma despot1_resids_structure (t : D1Type) (its : ℕ) (lm : LMMin) (h : ℝ)
    (flip : List ℝ) (TR : ℝ) (data : List ℝ) (B1 : ℝ) :
    (despot1_apply t its lm h flip TR data B1).2 =
      List.zipWith (fun d s => d - |s|) data
        (One_SPGR flip TR (despot1_apply t its lm h flip TR data B1).1.1
          (despot1_apply t its lm h flip TR data B1).1.2 B1) := by
  cases t <;> simp [despot1_apply, List.zipWith_map_right]

/-- The LLS outputs are exactly the transformed normal-equations solution. -/
lemma despot1_lls_outputs (its : ℕ) (lm : LMMin) (h : ℝ)
    (flip : List ℝ) (TR : ℝ) (data : List ℝ) (B1 : ℝ) :
    (despot1_apply .LLS its lm h flip TR data B1).1 =
      outFromB TR (llsSolve (llsX flip data B1) (llsY flip data B1)) := rfl

/-- C4: with zero reweighting passes the WLLS strategy returns exactly the
LLS outputs and residuals. -/
theorem wlls_zero_iterations_eq_lls (its : ℕ) (lm : LMMin) (h : ℝ)
    (flip : List ℝ) (TR : ℝ) (data : List ℝ) (B1 : ℝ) :
    despot1_apply .WLLS 0 lm h flip TR data B1 =
      despot1_apply .LLS its lm h flip TR data B1 := rfl

/-- C6: the `--noise` standard deviation parsed by `qsignal` is never
consumed by the synthesis filter: for every `sigma`, the per-voxel output is
exactly the noiseless forward-model signal (the filter adds no noise). -/
theorem qsignal_noise_never_added (sigma : ℝ) (signal : List ℝ → List ℂ)
    (params : List ℝ) :
    qsignalVoxelOutput sigma signal params = signal params ∧
    qsignalVoxelOutput sigma signal params =
      qsignalVoxelOutput 0 signal params := ⟨rfl, rfl⟩

/-- C8: the NLLS strategy hands the Levenberg-Marquardt minimizer the
residual functor, its numerically-differenced Jacobian, and the
function-evaluation budget `iterations * (conditionCount + 1)` (the condition
count being the sequence's flip-angle count). -/
theorem nlls_budget_and_jacobian (its : ℕ) (lm : LMMin) (h : ℝ)
    (flip : List ℝ) (TR : ℝ) (data : List ℝ) (B1 : ℝ) :
    ∃ start : ℝ × ℝ,
      (despot1_apply .NLLS its lm h flip TR data B1).1 =
        lm (t1functor flip TR data B1)
          (numericalDiffJacobian (t1functor flip TR data B1) h)
          (its * (flip.length + 1)) start :=
  ⟨outFromB TR (llsSolve (llsX flip data B1) (llsY flip data B1)), rfl⟩

/-- C10: the NLLS strategy always performs the ordinary least-squares solve
first and hands its `(PD, T1)` result to the minimizer as the starting
point. -/
theorem nlls_starts_from_lls_estimate (its : ℕ) (lm : LMMin) (h : ℝ)
    (flip : List ℝ) (TR : ℝ) (data : List ℝ) (B1 : ℝ) :
    ∃ fev : ℕ,
      (despot1_apply .NLLS its lm h flip TR data B1).1 =
        lm (t1functor flip TR data B1)
          (numericalDiffJacobian (t1functor flip TR data B1) h)
          fev
          (outFromB TR (llsSolve (llsX flip data B1) (llsY flip data B1))) :=
  ⟨its * (flip.length + 1), rfl⟩

/-- C9: any sequence-type name outside the known variants (and distinct from
the `END`/empty terminators that end input) makes `parseInput` fail
synchronously with an error naming the unknown type. -/
theorem parse_unknown_type_errors (t : String) (rest : List String)
    (hmem : t ∉ knownSeqNames) (hEnd : t ≠ "END") (hEmpty : t ≠ "") :
    parseInput (t :: rest) = .error ("Unknown signal type: " ++ t) := by
  simp only [knownSeqNames, List.mem_cons, List.not_mem_nil, or_false,
    not_or] at hmem
  obtain ⟨h1, h2, h3, h4, h5, h6, h7, h8, h9⟩ := hmem
  simp [parseInput, parseSeqType, h1, h2, h3, h4, h5, h6, h7, h8, h9,
    hEnd, hEmpty]

/-- Witness for C9 at the concrete unknown name `"FOO"`. -/
theorem parse_unknown_type_errors_witness :
    ("FOO" ∉ knownSeqNames ∧ "FOO" ≠ "END" ∧ "FOO" ≠ "") ∧
      parseInput ["FOO"] = .error ("Unknown signal type: " ++ "FOO") :=
  ⟨by decide,
   parse_unknown_type_errors "FOO" [] (by decide) (by decide) (by decide)⟩

/-- C1 counterexample: at flip angles `[1, 2]` rad, `TR = 1`, `B1 = 1` and
data `[-1, -1]`, the first returned residual is not
`|signal(outputs)[0]| - data[0]`: the code computes `data - |signal|`
(qdespot1.cpp line 123), which has the opposite sign whenever the residual is
nonzero (here the magnitude `|signal[0]| ≥ 0` can never equal the negative
datum). -/
theorem residual_sign_counterexample :
    (despot1_apply .LLS 4 lm0 1 [1, 2] 1 [-1, -1] 1).2.headI ≠
      |(One_SPGR [1, 2] 1 (despot1_apply .LLS 4 lm0 1 [1, 2] 1 [-1, -1] 1).1.1
          (despot1_apply .LLS 4 lm0 1 [1, 2] 1 [-1, -1] 1).1.2 1).headI| -
        (-1 : ℝ) := by
  have key : ∀ x : ℝ, 0 ≤ x → (-1 : ℝ) - x ≠ x - (-1) := by
    intro x hx hEq
    linarith
  have hres := despot1_resids_structure .LLS 4 lm0 1 [1, 2] 1 [-1, -1] 1
  rw [hres]
  simp only [One_SPGR, List.map_cons, List.map_nil, List.zipWith_cons_cons,
    List.zipWith_nil_right, List.headI, abs_abs]
  exact key _ (abs_nonneg _)

/-- C1 as amended: for every strategy and every input, the returned residual
vector is `data[i] - |signal(model, seq, outputs)[i]|`, the original data
minus the forward-model magnitude at the estimated parameters (the spec's
sign is reversed). -/
theorem residuals_are_data_minus_model (t : D1Type) (its : ℕ) (lm : LMMin)
    (h : ℝ) (flip : List ℝ) (TR : ℝ) (data : List ℝ) (B1 : ℝ) :
    (despot1_apply t its lm h flip TR data B1).2 =
      List.zipWith (fun d s => d - |s|) data
        (One_SPGR flip TR (despot1_apply t its lm h flip TR data B1).1.1
          (despot1_apply t its lm h flip TR data B1).1.2 B1) :=
  despot1_resids_structure t its lm h flip TR data B1

/-- C7 counterexample: with a 0-radian first flip angle the linearization's
divisor `sin(α*B1)` is exactly zero, and the code performs the division
`data/sin` on it unguarded — the first `Y` entry is literally the quotient of
the datum by `sin 0 = 0` (no reject/skip/clamp branch exists; under IEEE
doubles this quotient is `inf`/`NaN`, in this exact-real model it is the
division-by-zero convention value). -/
theorem zero_flip_divides_by_zero_counterexample :
    Real.sin ((0 : ℝ) * 1) = 0 ∧
      llsY [0, Real.pi / 3] [1, 1] 1 =
        [(1 : ℝ) / Real.sin ((0 : ℝ) * 1), 1 / Real.sin (Real.pi / 3 * 1)] := by
  constructor
  · simp
  · simp [llsY, scaledFlip]

/-- At flip angles `[π/4, π/3]`, data `[1, 0]` and `B1 = 1` the design-matrix
column is `[1, 0]`. -/
lemma llsX_concrete : llsX [Real.pi / 4, Real.pi / 3] [1, 0] 1 = [1, 0] := by
  simp [llsX, scaledFlip, Real.tan_pi_div_four]

/-- At flip angles `[π/4, π/3]`, data `[1, 0]` and `B1 = 1` the substituted
ordinates are `[√2, 0]`. -/
lemma llsY_concrete :
    llsY [Real.pi / 4, Real.pi / 3] [1, 0] 1 = [Real.sqrt 2, 0] := by
  have h1 : (1 : ℝ) / (Real.sqrt 2 / 2) = Real.sqrt 2 := by
    rw [one_div_div, Real.div_sqrt]
  simp [llsY, scaledFlip, Real.sin_pi_div_four, h1]

/-- The unweighted normal-equations solution at `x = [1, 0]`,
`y = [√2, 0]`. -/
lemma llsSolve_concrete :
    llsSolve [1, 0] [Real.sqrt 2, 0] = (Real.sqrt 2, 0) := by
  unfold llsSolve dot2 solve2
  norm_num
  ring

/-- The concrete LLS fit at flip `[π/4, π/3]`, `TR = 1`, data `[1, 0]`,
`B1 = 1`: the returned outputs are `(0/(1-√2), -1/ln √2)`. -/
lemma despot1_outputs_concrete :
    (despot1_apply .LLS 4 lm0 1 [Real.pi / 4, Real.pi / 3] 1 [1, 0] 1).1 =
      ((0 : ℝ) / (1 - Real.sqrt 2), -1 / Real.log (Real.sqrt 2)) := by
  rw [despot1_lls_outputs, llsX_concrete, llsY_concrete, llsSolve_concrete]
  rfl

/-- One is less than the square root of two. -/
lemma one_lt_sqrt_two : (1 : ℝ) < Real.sqrt 2 :=
  (Real.lt_sqrt (by norm_num)).mpr (by norm_num)

/-- C5 counterexample: at flip `[π/4, π/3]`, `TR = 1`, data `[1, 0]`,
`B1 = 1`, the LLS strategy produces `b₀ = √2 > 1`, hence
`T1 = -TR/ln(b₀) < 0`, and `apply` returns this non-positive T1 as a normal
output — there is no FitDivergedError (no failure path exists anywhere in
`DESPOT1::apply`). -/
theorem nonpositive_T1_returned_counterexample :
    (despot1_apply .LLS 4 lm0 1 [Real.pi / 4, Real.pi / 3] 1 [1, 0] 1).1.2
      < 0 := by
  rw [despot1_outputs_concrete]
  exact div_neg_of_neg_of_pos (by norm_num) (Real.log_pos one_lt_sqrt_two)

/-- C5 as amended: `DESPOT1::apply` performs no divergence check after the
strategy completes: whenever the fitted linear coefficient `b₀` exceeds 1
(and `TR > 0`), the returned `outputs[1]` is the negative number
`-TR/ln(b₀)`, handed back as a normal output rather than an error. -/
theorem no_divergence_check (its : ℕ) (lm : LMMin) (h : ℝ)
    (flip : List ℝ) (TR : ℝ) (data : List ℝ) (B1 : ℝ)
    (hTR : 0 < TR)
    (hb : 1 < (llsSolve (llsX flip data B1) (llsY flip data B1)).1) :
    (despot1_apply .LLS its lm h flip TR data B1).1.2 =
      -TR / Real.log (llsSolve (llsX flip data B1) (llsY flip data B1)).1 ∧
    (despot1_apply .LLS its lm h flip TR data B1).1.2 < 0 := by
  refine ⟨rfl, ?_⟩
  have hlog := Real.log_pos hb
  have hout : (despot1_apply .LLS its lm h flip TR data B1).1.2 =
      -TR / Real.log (llsSolve (llsX flip data B1) (llsY flip data B1)).1 :=
    rfl
  rw [hout]
  exact div_neg_of_neg_of_pos (by linarith) hlog

/-- Witness for C5's amended theorem at the concrete diverging input. -/
theorem no_divergence_check_witness :
    ((0 : ℝ) < 1 ∧
      1 < (llsSolve (llsX [Real.pi / 4, Real.pi / 3] [1, 0] 1)
            (llsY [Real.pi / 4, Real.pi / 3] [1, 0] 1)).1) ∧
    ((despot1_apply .LLS 4 lm0 1 [Real.pi / 4, Real.pi / 3] 1 [1, 0] 1).1.2 =
        -1 / Real.log (llsSolve (llsX [Real.pi / 4, Real.pi / 3] [1, 0] 1)
            (llsY [Real.pi / 4, Real.pi / 3] [1, 0] 1)).1 ∧
      (despot1_apply .LLS 4 lm0 1 [Real.pi / 4, Real.pi / 3] 1 [1, 0] 1).1.2
        < 0) := by
  have hb : 1 < (llsSolve (llsX [Real.pi / 4, Real.pi / 3] [1, 0] 1)
      (llsY [Real.pi / 4, Real.pi / 3] [1, 0] 1)).1 := by
    rw [llsX_concrete, llsY_concrete, llsSolve_concrete]
    exact one_lt_sqrt_two
  exact ⟨⟨by norm_num, hb⟩,
    no_divergence_check 4 lm0 1 [Real.pi / 4, Real.pi / 3] 1 [1, 0] 1
      (by norm_num) hb⟩

/-- C2: whenever the normal-equations matrix is nonsingular, the
ClosedFormLinear strategy's output satisfies the spec's description: the
substituted `X = S/tan(α*B1)`, `Y = S/sin(α*B1)` ordinary least-squares
normal equations `(XᵗX) b = Xᵗ Y` are solved exactly, and the outputs are
`T1 = -TR/ln(b₀)`, `PD = b₁/(1-b₀)`. -/
theorem lls_follows_spec (its : ℕ) (lm : LMMin) (h : ℝ)
    (flip : List ℝ) (TR : ℝ) (data : List ℝ) (B1 : ℝ)
    (hdet : llsDet (llsX flip data B1) ≠ 0) :
    LLS_spec flip TR data B1
      (despot1_apply .LLS its lm h flip TR data B1).1 := by
  refine ⟨llsSolve (llsX flip data B1) (llsY flip data B1), ?_, rfl⟩
  have hx : List.zipWith (fun s a => s / Real.tan (a * B1)) data flip =
      llsX flip data B1 := by
    simp [llsX, scaledFlip, List.zipWith_map_right]
  have hy : List.zipWith (fun s a => s / Real.sin (a * B1)) data flip =
      llsY flip data B1 := by
    simp [llsY, scaledFlip, List.zipWith_map_right]
  simp only [hx, hy]
  exact solve2_solves _ _ _ _ _ hdet

/-- Witness for C2 at the concrete nonsingular input
(flip `[π/4, π/3]`, data `[1, 0]`, `B1 = 1`). -/
theorem lls_follows_spec_witness :
    llsDet (llsX [Real.pi / 4, Real.pi / 3] [1, 0] 1) ≠ 0 ∧
    LLS_spec [Real.pi / 4, Real.pi / 3] 1 [1, 0] 1
      (despot1_apply .LLS 4 lm0 1 [Real.pi / 4, Real.pi / 3] 1 [1, 0] 1).1 := by
  have hdet : llsDet (llsX [Real.pi / 4, Real.pi / 3] [1, 0] 1) ≠ 0 := by
    rw [llsX_concrete]
    unfold llsDet dot2
    norm_num
  exact ⟨hdet,
    lls_follows_spec 4 lm0 1 [Real.pi / 4, Real.pi / 3] 1 [1, 0] 1 hdet⟩

/-- The weighted normal-equations determinant on a two-condition design with
second abscissa zero reduces to `w0 * w1 * x0²`. -/
lemma wllsDet_two (w0 w1 x0 : ℝ) :
    wllsDet [w0, w1] [x0, 0] = w0 * w1 * x0 ^ 2 := by
  unfold wllsDet dot3 dot2
  simp
  ring

/-- C3: the WLLS strategy is a fixed-count iteration — the outputs are
exactly the `its`-fold iterate of the reweighting pass applied to the initial
unweighted solution (no convergence check can terminate it early), and each
pass recomputes the weight `w(α) = [sin(α)/(1 - exp(-TR/T1)·cos(α))]²` over
the B1-scaled flip angles at the incoming T1 estimate, solves the weighted
normal equations (exactly, whenever they are nonsingular), and re-derives
`(PD, T1)` from the new coefficients. -/
theorem wlls_reweighting_follows_spec (its : ℕ) (lm : LMMin) (h : ℝ)
    (flip : List ℝ) (TR : ℝ) (data : List ℝ) (B1 : ℝ) :
    ((despot1_apply .WLLS its lm h flip TR data B1).1 =
      (wllsStep (scaledFlip flip B1) (llsX flip data B1) (llsY flip data B1)
          TR)^[its]
        (outFromB TR
          (llsSolve (llsX flip data B1) (llsY flip data B1)))) ∧
    ∀ o : ℝ × ℝ,
      wllsDet (wllsW (scaledFlip flip B1) TR o.2) (llsX flip data B1) ≠ 0 →
      WLLS_pass_spec (scaledFlip flip B1) (llsX flip data B1)
        (llsY flip data B1) TR o.2
        (wllsStep (scaledFlip flip B1) (llsX flip data B1)
          (llsY flip data B1) TR o) := by
  constructor
  · rfl
  · intro o hdet
    exact ⟨wllsSolve (wllsW (scaledFlip flip B1) TR o.2) (llsX flip data B1)
        (llsY flip data B1),
      solve2_solves _ _ _ _ _ hdet, rfl⟩

/-- Witness for C3 at the concrete input flip `[π/4, π/3]`, `TR = 1`, data
`[1, 0]`, `B1 = 1`, with incoming estimate `(PD, T1) = (0, 1)`. -/
theorem wlls_reweighting_witness :
    wllsDet (wllsW (scaledFlip [Real.pi / 4, Real.pi / 3] 1) 1
        ((0 : ℝ), (1 : ℝ)).2) (llsX [Real.pi / 4, Real.pi / 3] [1, 0] 1)
      ≠ 0 ∧
    ((despot1_apply .WLLS 4 lm0 1 [Real.pi / 4, Real.pi / 3] 1 [1, 0] 1).1 =
      (wllsStep (scaledFlip [Real.pi / 4, Real.pi / 3] 1)
          (llsX [Real.pi / 4, Real.pi / 3] [1, 0] 1)
          (llsY [Real.pi / 4, Real.pi / 3] [1, 0] 1) 1)^[4]
        (outFromB 1 (llsSolve (llsX [Real.pi / 4, Real.pi / 3] [1, 0] 1)
          (llsY [Real.pi / 4, Real.pi / 3] [1, 0] 1)))) ∧
    WLLS_pass_spec (scaledFlip [Real.pi / 4, Real.pi / 3] 1)
      (llsX [Real.pi / 4, Real.pi / 3] [1, 0] 1)
      (llsY [Real.pi / 4, Real.pi / 3] [1, 0] 1) 1 ((0 : ℝ), (1 : ℝ)).2
      (wllsStep (scaledFlip [Real.pi / 4, Real.pi / 3] 1)
        (llsX [Real.pi / 4, Real.pi / 3] [1, 0] 1)
        (llsY [Real.pi / 4, Real.pi / 3] [1, 0] 1) 1
        ((0 : ℝ), (1 : ℝ))) := by
  have hs2 : 0 < Real.sqrt 2 := Real.sqrt_pos.mpr (by norm_num)
  have hs3 : 0 < Real.sqrt 3 := Real.sqrt_pos.mpr (by norm_num)
  have he1 : Real.exp (-1 / 1) < 1 := Real.exp_lt_one_iff.mpr (by norm_num)
  have hep : 0 < Real.exp (-1 / 1) := Real.exp_pos _
  have hs2lt : Real.sqrt 2 < 2 := by
    have h24 : Real.sqrt 2 < Real.sqrt 4 :=
      Real.sqrt_lt_sqrt (by norm_num) (by norm_num)
    have h4 : Real.sqrt 4 = 2 := by
      rw [show (4 : ℝ) = 2 ^ 2 by norm_num]
      exact Real.sqrt_sq (by norm_num)
    linarith
  have hW : wllsW [Real.pi / 4, Real.pi / 3] 1 ((0 : ℝ), (1 : ℝ)).2 =
      [(Real.sin (Real.pi / 4) /
          (1 - Real.exp (-1 / 1) * Real.cos (Real.pi / 4))) ^ 2,
       (Real.sin (Real.pi / 3) /
          (1 - Real.exp (-1 / 1) * Real.cos (Real.pi / 3))) ^ 2] := rfl
  have hden0 : 1 - Real.exp (-1 / 1) * Real.cos (Real.pi / 4) ≠ 0 := by
    rw [Real.cos_pi_div_four]
    have hprod : 0 < (1 - Real.exp (-1 / 1)) * Real.sqrt 2 :=
      mul_pos (by linarith) hs2
    intro hzero
    nlinarith
  have hden1 : 1 - Real.exp (-1 / 1) * Real.cos (Real.pi / 3) ≠ 0 := by
    rw [Real.cos_pi_div_three]
    intro hzero
    nlinarith
  have hnum0 : Real.sin (Real.pi / 4) ≠ 0 := by
    rw [Real.sin_pi_div_four]
    positivity
  have hnum1 : Real.sin (Real.pi / 3) ≠ 0 := by
    rw [Real.sin_pi_div_three]
    positivity
  have hdet : wllsDet (wllsW (scaledFlip [Real.pi / 4, Real.pi / 3] 1) 1
      ((0 : ℝ), (1 : ℝ)).2) (llsX [Real.pi / 4, Real.pi / 3] [1, 0] 1)
      ≠ 0 := by
    rw [scaledFlip_one, llsX_concrete, hW, wllsDet_two]
    exact mul_ne_zero (mul_ne_zero
      (pow_ne_zero 2 (div_ne_zero hnum0 hden0))
      (pow_ne_zero 2 (div_ne_zero hnum1 hden1))) (by norm_num)
  exact ⟨hdet,
    (wlls_reweighting_follows_spec 4 lm0 1 [Real.pi / 4, Real.pi / 3] 1
      [1, 0] 1).1,
    (wlls_reweighting_follows_spec 4 lm0 1 [Real.pi / 4, Real.pi / 3] 1
      [1, 0] 1).2 ((0 : ℝ), (1 : ℝ)) hdet⟩

/-- C7 as amended: a 0-radian flip-angle entry makes both linearization
divisors `sin(α*B1)` and `tan(α*B1)` zero, and the code computes the
unguarded quotients `data/0` into the design matrix — there is no
reject/skip/clamp policy; the degenerate quotient propagates into the fit. -/
theorem zero_flip_angle_unguarded (d : ℝ) (ds : List ℝ) (rest : List ℝ)
    (B1 : ℝ) :
    Real.sin (0 * B1) = 0 ∧
      Real.tan (0 * B1) = 0 ∧
      llsY (0 :: rest) (d :: ds) B1 =
        d / Real.sin (0 * B1) :: llsY rest ds B1 ∧
      llsX (0 :: rest) (d :: ds) B1 =
        d / Real.tan (0 * B1) :: llsX rest ds B1 := by
  refine ⟨by simp, by simp [Real.tan_zero], ?_, ?_⟩
  · simp [llsY, scaledFlip]
  · simp [llsX, scaledFlip]
